import Mathlib

/-!
Shallow embedding of the outbound request scheduler of
web-monitoring-versionista-scraper (`createClient` and its inner
`doNextRequest`, `sleep`, `sleepIfNecessary` helpers).

The JavaScript scheduler is single-threaded and event driven: every
piece of scheduler logic runs to completion inside one callback
(a `submit` call, a request-completion callback, or a `setTimeout`
callback).  We model it as a state machine whose steps are exactly
those three callbacks.  Time is in milliseconds (`Nat`).  `Infinity`
for `maxPerMinute` is modelled by `Option Nat` with `none` standing
for an unlimited window budget (the source maps a configured `0` to
`Infinity` via `maxPerMinute || Infinity`).

Ghost/history fields (`windowDispatches`, `log`, `lastNow`) are pure
instrumentation: nothing in the transition functions reads them; they
exist so that theorems can speak about dispatch counts, settlement
events and the ordering of observable actions.
-/

namespace Sched

/-- `windowSize = 60 * 1000` from the source (one minute). -/
def WINDOW_SIZE : Nat := 60 * 1000

/-- `const MAX_RETRIES = 3` from the source. -/
def MAX_RETRIES : Nat := 3

/-- `const defaultRetryIf = r => (r.statusCode >= 502 && r.statusCode <= 504)`. -/
def defaultRetryIf (statusCode : Nat) : Bool :=
  decide (502 ≤ statusCode) && decide (statusCode ≤ 504)

/-- Construction-time configuration of `createClient` (the fields the
scheduler core reads; `userAgent` and the cookie jar play no part in
the scheduling logic and are omitted). -/
structure Config where
  maxSockets : Nat
  sleepEvery : Nat
  sleepFor : Nat
  maxPerMinute : Nat
deriving Repr, DecidableEq

/-- `maxPerMinute = maxPerMinute || Infinity`: a configured `0` means
an unlimited per-window budget, modelled as `none`. -/
def effMaxPerMinute (cfg : Config) : Option Nat :=
  if cfg.maxPerMinute = 0 then none else some cfg.maxPerMinute

/-- Options accepted by the function `createClient` returns
(`options.immediate`, `options.retry`, `options.retryIf`; the HTTP
descriptor itself is never inspected by the scheduler). -/
structure SubmitOptions where
  immediate : Bool := false
  retry : Bool := true
  retryIf : Option (Nat → Bool) := none

/-- The queued task object built in the returned closure:
`{options, retries, retryIf, resolve, reject}`.  The resolve/reject
capabilities are modelled through the ghost log, keyed by `id` (ids
are assigned in submission order). -/
structure Task where
  id : Nat
  retries : Nat
  retryIf : Nat → Bool
  immediate : Bool

/-- Outcome handed to the request-completion callback `(error, response)`:
either a transport error (with its `code === ECONNRESET` test
pre-evaluated) or a response carrying a status code.  The `request`
library supplies exactly one of the two. -/
inductive Outcome where
  | transportError (connReset : Bool)
  | response (statusCode : Nat)
deriving Repr, DecidableEq

/-- Ghost log of observable scheduler actions. -/
inductive LogEntry where
  | dispatch (time : Nat) (taskId : Nat)
  | resolved (taskId : Nat) (statusCode : Nat)
  | rejected (taskId : Nat) (connReset : Bool)
deriving Repr, DecidableEq

/-- The mutable state captured by the `createClient` closure. -/
structure ClientState where
  untilSleep : Nat
  sleeping : Bool
  availableSockets : Nat
  windowStart : Option Nat
  availableInWindow : Option Nat
  queue : List Task
  inFlight : List (Nat × Task)
  timers : List Nat
  nextTaskId : Nat
  nextDispatchId : Nat
  windowDispatches : Nat
  lastNow : Nat
  log : List LogEntry

/-- Initial closure state: `untilSleep = sleepEvery`, `sleeping = false`,
`availableSockets = maxSockets`, `windowStart` undefined,
`availableInWindow = maxPerMinute`, empty queue. -/
def initState (cfg : Config) : ClientState :=
  { untilSleep := cfg.sleepEvery
    sleeping := false
    availableSockets := cfg.maxSockets
    windowStart := none
    availableInWindow := effMaxPerMinute cfg
    queue := []
    inFlight := []
    timers := []
    nextTaskId := 0
    nextDispatchId := 0
    windowDispatches := 0
    lastNow := 0
    log := [] }

/-- `function sleep (time = sleepFor)`: set `sleeping`, register a
timeout that will fire no earlier than `now + delay`. -/
def sleep (now delay : Nat) (s : ClientState) : ClientState :=
  { s with sleeping := true, timers := s.timers ++ [now + delay] }

/-- `function sleepIfNecessary ()`: skip when already sleeping or the
cooldown feature is disabled (`sleepEvery <= 0`); otherwise count down
and start a cooldown sleep of `sleepFor` when the countdown hits zero. -/
def sleepIfNecessary (cfg : Config) (now : Nat) (s : ClientState) : ClientState :=
  if s.sleeping = true ∨ cfg.sleepEvery = 0 then s
  else
    let u := if 0 < s.untilSleep then s.untilSleep - 1 else s.untilSleep
    if u = 0 then sleep now cfg.sleepFor { s with untilSleep := u }
    else { s with untilSleep := u }

/-- Window refresh at the top of `doNextRequest`: on first call record
`windowStart = now`; afterwards, once more than `windowSize` has
elapsed, advance `windowStart` to the window-aligned current time and
reset the window budget. -/
def refreshWindow (cfg : Config) (now : Nat) (s : ClientState) : ClientState :=
  match s.windowStart with
  | none => { s with windowStart := some now }
  | some ws =>
      if WINDOW_SIZE < now - ws then
        { s with windowStart := some (now - (now - ws) % WINDOW_SIZE)
                 availableInWindow := effMaxPerMinute cfg
                 windowDispatches := 0 }
      else s

/-- The dispatch arm of `doNextRequest`: pop the queue head, decrement
`availableSockets` and `availableInWindow`, and hand the task to the
HTTP primitive (modelled by adding it to `inFlight` under a fresh
dispatch id, and logging the dispatch). -/
def dispatchTask (now : Nat) (task : Task) (rest : List Task) (s : ClientState) : ClientState :=
  { s with queue := rest
           availableSockets := s.availableSockets - 1
           availableInWindow := s.availableInWindow.map (· - 1)
           windowDispatches := s.windowDispatches + 1
           inFlight := s.inFlight ++ [(s.nextDispatchId, task)]
           nextDispatchId := s.nextDispatchId + 1
           log := s.log ++ [LogEntry.dispatch now task.id] }

/-- `function doNextRequest ()` translated branch for branch:
return when out of sockets or sleeping; refresh the rate window; if the
window budget is exhausted, sleep until the window resets; otherwise
shift the queue and dispatch the head task (if any). -/
def doNextRequest (cfg : Config) (now : Nat) (s : ClientState) : ClientState :=
  if s.availableSockets = 0 ∨ s.sleeping = true then s
  else
    let s1 := refreshWindow cfg now s
    if s1.availableInWindow = some 0 then
      sleep now (WINDOW_SIZE - (now - s1.windowStart.getD now)) s1
    else
      match s1.queue with
      | [] => s1
      | task :: rest => dispatchTask now task rest s1

/-- Backoff delay imposed when a task is retried:
`sleep(sleepFor * task.retries * 2)`, evaluated after the retry counter
has been incremented. -/
def backoffDuration (cfg : Config) (retries : Nat) : Nat :=
  cfg.sleepFor * retries * 2

/-- `const shouldRetry = (error && error.code === ECONNRESET) ||
(response && task.retryIf(response))`.  On a transport error no
response object exists, so the caller predicate is not consulted. -/
def shouldRetry (task : Task) : Outcome → Bool
  | .transportError connReset => connReset
  | .response statusCode => task.retryIf statusCode

/-- Retry-or-settle logic of the completion callback: a retriable
outcome with retry budget left re-inserts the task at the queue head
(with its counter bumped) and starts a backoff sleep; otherwise a
transport error rejects and a response resolves. -/
def handleOutcome (cfg : Config) (now : Nat) (task : Task) (outcome : Outcome)
    (s : ClientState) : ClientState :=
  if shouldRetry task outcome = true ∧ task.retries < MAX_RETRIES then
    sleep now (backoffDuration cfg (task.retries + 1))
      { s with queue := { task with retries := task.retries + 1 } :: s.queue }
  else
    match outcome with
    | .transportError connReset => { s with log := s.log ++ [LogEntry.rejected task.id connReset] }
    | .response statusCode => { s with log := s.log ++ [LogEntry.resolved task.id statusCode] }

/-- Body of the request-completion callback, run on a state from which
the completed dispatch has already been removed: `availableSockets++`,
`sleepIfNecessary()`, retry-or-settle, then `process.nextTick(doNextRequest)`. -/
def onComplete (cfg : Config) (now : Nat) (task : Task) (outcome : Outcome)
    (s : ClientState) : ClientState :=
  doNextRequest cfg now
    (handleOutcome cfg now task outcome
      (sleepIfNecessary cfg now { s with availableSockets := s.availableSockets + 1 }))

/-- Task construction in the returned closure:
`retries: (options.retry === false) ? MAX_RETRIES : 0`,
`retryIf: options.retryIf || defaultRetryIf`. -/
def mkTask (id : Nat) (opts : SubmitOptions) : Task :=
  { id := id
    retries := if opts.retry = false then MAX_RETRIES else 0
    retryIf := opts.retryIf.getD defaultRetryIf
    immediate := opts.immediate }

/-- `queue[options.immediate ? unshift : push](task)`. -/
def enqueueTask (task : Task) (queue : List Task) : List Task :=
  if task.immediate = true then task :: queue else queue ++ [task]

/-- The function returned by `createClient`: build the task, enqueue
it (head insertion when `immediate`), then attempt admission. -/
def submitTask (cfg : Config) (now : Nat) (opts : SubmitOptions) (s : ClientState) : ClientState :=
  doNextRequest cfg now
    { s with nextTaskId := s.nextTaskId + 1
             queue := enqueueTask (mkTask s.nextTaskId opts) s.queue }

/-- Remove the in-flight entry with the given dispatch id, returning
its task and the remaining entries. -/
def takeFlight (dispatchId : Nat) : List (Nat × Task) → Option (Task × List (Nat × Task))
  | [] => none
  | (d, t) :: rest =>
      if d = dispatchId then some (t, rest)
      else
        match takeFlight dispatchId rest with
        | none => none
        | some (t', rest') => some (t', (d, t) :: rest')

/-- Timer callback of `sleep`: clear `sleeping`, reset the cooldown
countdown to `sleepEvery`, and attempt admission. -/
def onTimer (cfg : Config) (now : Nat) (idx : Nat) (s : ClientState) : ClientState :=
  doNextRequest cfg now
    { s with timers := s.timers.eraseIdx idx
             sleeping := false
             untilSleep := cfg.sleepEvery }

/-- Environment events driving the scheduler: a caller submits a task,
the HTTP primitive completes an in-flight dispatch, or a registered
timeout fires (no earlier than its due time). -/
inductive Event where
  | submit (now : Nat) (opts : SubmitOptions)
  | complete (now : Nat) (dispatchId : Nat) (outcome : Outcome)
  | timerFired (now : Nat) (idx : Nat)

/-- One scheduler step; `none` marks an event the real system cannot
deliver (time running backwards, completing a request that is not in
flight, a timeout firing before its due time or without being set). -/
def step (cfg : Config) (s : ClientState) : Event → Option ClientState
  | .submit now opts =>
      if s.lastNow ≤ now then
        some (submitTask cfg now opts { s with lastNow := now })
      else none
  | .complete now dispatchId outcome =>
      if s.lastNow ≤ now then
        match takeFlight dispatchId s.inFlight with
        | none => none
        | some (task, rest) =>
            some (onComplete cfg now task outcome { s with lastNow := now, inFlight := rest })
      else none
  | .timerFired now idx =>
      if s.lastNow ≤ now ∧ idx < s.timers.length ∧ s.timers.getD idx 0 ≤ now then
        some (onTimer cfg now idx { s with lastNow := now })
      else none

/-- Run the scheduler from a given state over a list of events. -/
def runFrom (cfg : Config) (s : ClientState) : List Event → Option ClientState
  | [] => some s
  | e :: rest =>
      match step cfg s e with
      | none => none
      | some s' => runFrom cfg s' rest

/-- Run the scheduler from the freshly constructed client state. -/
def run (cfg : Config) (evts : List Event) : Option ClientState :=
  runFrom cfg (initState cfg) evts

/-- Number of dispatches of the task with the given id recorded in a log. -/
def dispatchCount (id : Nat) (log : List LogEntry) : Nat :=
  log.countP fun e =>
    match e with
    | .dispatch _ i => i == id
    | _ => false

/-- Number of settlement events (resolutions or rejections) delivered
to the task with the given id. -/
def settleCount (id : Nat) (log : List LogEntry) : Nat :=
  log.countP fun e =>
    match e with
    | .resolved i _ => i == id
    | .rejected i _ => i == id
    | _ => false

/-- Number of live copies of a task id owned by the scheduler (queued
or in flight). -/
def occCount (id : Nat) (s : ClientState) : Nat :=
  (s.queue.countP fun t => t.id == id) + (s.inFlight.countP fun p => p.2.id == id)

/-- Number of dispatches recorded in a log whose start time falls in
the half-open window `[a, a + WINDOW_SIZE)` of the configured duration. -/
def dispatchesWithin (a : Nat) (log : List LogEntry) : Nat :=
  log.countP fun e =>
    match e with
    | .dispatch t _ => decide (a ≤ t ∧ t < a + WINDOW_SIZE)
    | _ => false

/-- Log of the final state of a run (empty when the run is invalid). -/
def finalLog (cfg : Config) (evts : List Event) : List LogEntry :=
  match run cfg evts with
  | some s => s.log
  | none => []

/-- Pending timers of the final state of a run. -/
def finalTimers (cfg : Config) (evts : List Event) : List Nat :=
  match run cfg evts with
  | some s => s.timers
  | none => []

/-- Queued task ids of the final state of a run. -/
def finalQueueIds (cfg : Config) (evts : List Event) : List Nat :=
  match run cfg evts with
  | some s => s.queue.map Task.id
  | none => []


/-! ### Counting helpers -/

theorem dispatchCount_append_dispatch (id tid t : Nat) (l : List LogEntry) :
    dispatchCount id (l ++ [LogEntry.dispatch t tid])
      = dispatchCount id l + (if tid = id then 1 else 0) := by
  simp only [dispatchCount, List.countP_append, List.countP_cons, List.countP_nil]
  split <;> rename_i h <;> simp_all

theorem dispatchCount_append_resolved (id tid st : Nat) (l : List LogEntry) :
    dispatchCount id (l ++ [LogEntry.resolved tid st]) = dispatchCount id l := by
  simp [dispatchCount, List.countP_append, List.countP_cons]

theorem dispatchCount_append_rejected (id tid : Nat) (c : Bool) (l : List LogEntry) :
    dispatchCount id (l ++ [LogEntry.rejected tid c]) = dispatchCount id l := by
  simp [dispatchCount, List.countP_append, List.countP_cons]

theorem settleCount_append_dispatch (id tid t : Nat) (l : List LogEntry) :
    settleCount id (l ++ [LogEntry.dispatch t tid]) = settleCount id l := by
  simp [settleCount, List.countP_append, List.countP_cons]

theorem settleCount_append_resolved (id tid st : Nat) (l : List LogEntry) :
    settleCount id (l ++ [LogEntry.resolved tid st])
      = settleCount id l + (if tid = id then 1 else 0) := by
  simp only [settleCount, List.countP_append, List.countP_cons, List.countP_nil]
  split <;> rename_i h <;> simp_all

theorem settleCount_append_rejected (id tid : Nat) (c : Bool) (l : List LogEntry) :
    settleCount id (l ++ [LogEntry.rejected tid c])
      = settleCount id l + (if tid = id then 1 else 0) := by
  simp only [settleCount, List.countP_append, List.countP_cons, List.countP_nil]
  split <;> rename_i h <;> simp_all

/-! ### takeFlight facts -/

theorem takeFlight_perm {did : Nat} :
    ∀ {l : List (Nat × Task)} {t : Task} {rest : List (Nat × Task)},
      takeFlight did l = some (t, rest) → List.Perm l ((did, t) :: rest) := by
  intro l
  induction l with
  | nil => intro t rest h; simp [takeFlight] at h
  | cons p l ih =>
      intro t rest h
      obtain ⟨d, tk⟩ := p
      rw [takeFlight] at h
      split at h
      · rename_i hd
        rw [Option.some.injEq, Prod.mk.injEq] at h
        obtain ⟨h1, h2⟩ := h
        subst hd h1 h2
        exact List.Perm.refl _
      · rename_i hd
        split at h
        · exact absurd h (by simp)
        · rename_i t' rest' heq
          rw [Option.some.injEq, Prod.mk.injEq] at h
          obtain ⟨h1, h2⟩ := h
          subst h1
          subst h2
          exact ((ih heq).cons _).trans (List.Perm.swap _ _ _)

/-! ### The inductive invariant -/

/-- Window-budget accounting: with an unlimited budget the counter is
`none` forever; with budget `m` the remaining counter plus the ghost
count of dispatches in the current window is always exactly `m`. -/
def WinInv (cfg : Config) (s : ClientState) : Prop :=
  match effMaxPerMinute cfg with
  | none => s.availableInWindow = none
  | some m => ∃ k, s.availableInWindow = some k ∧ k + s.windowDispatches = m

/-- The inductive invariant of the scheduler state. -/
structure Inv (cfg : Config) (s : ClientState) : Prop where
  sock : s.availableSockets + s.inFlight.length = cfg.maxSockets
  win : WinInv cfg s
  cons : ∀ id, occCount id s + settleCount id s.log
           = if id < s.nextTaskId then 1 else 0
  qret : ∀ t ∈ s.queue, dispatchCount t.id s.log ≤ t.retries ∧ t.retries ≤ MAX_RETRIES
  fret : ∀ p ∈ s.inFlight, dispatchCount p.2.id s.log ≤ p.2.retries + 1 ∧ p.2.retries ≤ MAX_RETRIES
  gone : ∀ id, occCount id s = 0 → dispatchCount id s.log ≤ MAX_RETRIES + 1
  fresh : ∀ id, s.nextTaskId ≤ id → dispatchCount id s.log = 0
  slt : s.sleeping = true → s.timers ≠ []

theorem initState_inv (cfg : Config) : Inv cfg (initState cfg) := by
  refine ⟨rfl, ?_, ?_, ?_, ?_, ?_, ?_, ?_⟩
  · unfold WinInv
    cases h : effMaxPerMinute cfg with
    | none => simp [initState, h]
    | some m => exact ⟨m, by simp [initState, h], by simp [initState]⟩
  · intro id; simp [initState, occCount, settleCount, dispatchCount]
  · intro t ht; simp [initState] at ht
  · intro p hp; simp [initState] at hp
  · intro id _; simp [initState, dispatchCount]
  · intro id _; simp [initState, dispatchCount]
  · intro h; simp [initState] at h

/-- Updating `untilSleep` alone touches no field the invariant reads. -/
theorem inv_withUntilSleep {cfg : Config} {s : ClientState} (h : Inv cfg s) (u : Nat) :
    Inv cfg { s with untilSleep := u } :=
  { sock := h.sock, win := h.win, cons := h.cons, qret := h.qret, fret := h.fret,
    gone := h.gone, fresh := h.fresh, slt := h.slt }

/-- Updating `lastNow` alone touches no field the invariant reads. -/
theorem Inv.withLastNow {cfg : Config} {s : ClientState} (h : Inv cfg s) (n : Nat) :
    Inv cfg { s with lastNow := n } :=
  { sock := h.sock, win := h.win, cons := h.cons, qret := h.qret, fret := h.fret,
    gone := h.gone, fresh := h.fresh, slt := h.slt }

theorem sleep_inv {cfg : Config} {s : ClientState} (h : Inv cfg s) (now d : Nat) :
    Inv cfg (sleep now d s) :=
  { sock := h.sock, win := h.win, cons := h.cons, qret := h.qret, fret := h.fret,
    gone := h.gone, fresh := h.fresh, slt := fun _ => by simp [sleep] }

theorem sleepIfNecessary_inv {cfg : Config} {s : ClientState} (h : Inv cfg s) (now : Nat) :
    Inv cfg (sleepIfNecessary cfg now s) := by
  unfold sleepIfNecessary
  split
  · exact h
  · dsimp only
    split
    · split
      · exact sleep_inv (inv_withUntilSleep h _) now cfg.sleepFor
      · exact inv_withUntilSleep h _
    · split
      · exact sleep_inv (inv_withUntilSleep h _) now cfg.sleepFor
      · exact inv_withUntilSleep h _

theorem refreshWindow_inv {cfg : Config} {s : ClientState} (h : Inv cfg s) (now : Nat) :
    Inv cfg (refreshWindow cfg now s) := by
  unfold refreshWindow
  cases hw : s.windowStart with
  | none =>
      exact { sock := h.sock, win := h.win, cons := h.cons, qret := h.qret,
              fret := h.fret, gone := h.gone, fresh := h.fresh, slt := h.slt }
  | some ws =>
      dsimp only
      split
      · refine { sock := h.sock, win := ?_, cons := h.cons, qret := h.qret,
                 fret := h.fret, gone := h.gone, fresh := h.fresh, slt := h.slt }
        unfold WinInv
        cases hm : effMaxPerMinute cfg with
        | none => simp
        | some m => exact ⟨m, rfl, by simp⟩
      · exact h

/-! ### Case analysis of the admission routine -/

theorem doNextRequest_cases (cfg : Config) (now : Nat) (s : ClientState)
    (motive : ClientState → Prop)
    (idle : s.availableSockets = 0 ∨ s.sleeping = true → motive s)
    (blocked : ¬(s.availableSockets = 0 ∨ s.sleeping = true) →
        (refreshWindow cfg now s).availableInWindow = some 0 →
        motive (sleep now
          (WINDOW_SIZE - (now - (refreshWindow cfg now s).windowStart.getD now))
          (refreshWindow cfg now s)))
    (empty : ¬(s.availableSockets = 0 ∨ s.sleeping = true) →
        ¬(refreshWindow cfg now s).availableInWindow = some 0 →
        (refreshWindow cfg now s).queue = [] →
        motive (refreshWindow cfg now s))
    (disp : ∀ task rest, ¬(s.availableSockets = 0 ∨ s.sleeping = true) →
        ¬(refreshWindow cfg now s).availableInWindow = some 0 →
        (refreshWindow cfg now s).queue = task :: rest →
        motive (dispatchTask now task rest (refreshWindow cfg now s))) :
    motive (doNextRequest cfg now s) := by
  unfold doNextRequest
  split
  · exact idle ‹_›
  · dsimp only
    split
    · exact blocked ‹_› ‹_›
    · split
      · rename_i hq
        exact empty ‹_› ‹_› hq
      · rename_i task rest hq
        exact disp task rest ‹_› ‹_› hq

/-- The admission routine never removes an in-flight entry: dispatch
does not preempt work already handed to the HTTP primitive. -/
theorem doNextRequest_inFlight_extend (cfg : Config) (now : Nat) (s : ClientState) :
    ∃ added, (doNextRequest cfg now s).inFlight = s.inFlight ++ added := by
  refine doNextRequest_cases cfg now s
    (fun s' => ∃ added, s'.inFlight = s.inFlight ++ added) ?_ ?_ ?_ ?_
  · intro _; exact ⟨[], by simp⟩
  · intro _ _
    refine ⟨[], ?_⟩
    show (refreshWindow cfg now s).inFlight = s.inFlight ++ []
    unfold refreshWindow
    cases s.windowStart with
    | none => simp
    | some ws => dsimp only; split <;> simp
  · intro _ _ _
    refine ⟨[], ?_⟩
    show (refreshWindow cfg now s).inFlight = s.inFlight ++ []
    unfold refreshWindow
    cases s.windowStart with
    | none => simp
    | some ws => dsimp only; split <;> simp
  · intro task rest _ _ _
    refine ⟨[((refreshWindow cfg now s).nextDispatchId, task)], ?_⟩
    show (refreshWindow cfg now s).inFlight ++ _ = s.inFlight ++ _
    unfold refreshWindow
    cases s.windowStart with
    | none => simp
    | some ws => dsimp only; split <;> simp

/-! ### Dispatch preserves the invariant -/

theorem dispatchTask_inv {cfg : Config} {s : ClientState} {task : Task} {rest : List Task}
    (h : Inv cfg s) (hq : s.queue = task :: rest)
    (hsock : s.availableSockets ≠ 0) (havail : s.availableInWindow ≠ some 0)
    (now : Nat) :
    Inv cfg (dispatchTask now task rest s) := by
  have hkey : task.id < s.nextTaskId
      ∧ List.countP (fun t => t.id == task.id) rest = 0
      ∧ List.countP (fun p => p.2.id == task.id) s.inFlight = 0
      ∧ settleCount task.id s.log = 0 := by
    have hc := h.cons task.id
    simp only [occCount, hq, List.countP_cons, beq_self_eq_true, if_true] at hc
    by_cases hlt : task.id < s.nextTaskId
    · simp only [hlt, if_true] at hc
      exact ⟨hlt, by omega, by omega, by omega⟩
    · simp only [hlt, if_false] at hc
      omega
  have hrest : ∀ t ∈ rest, t.id ≠ task.id := by
    intro t ht heq
    have := List.countP_eq_zero.mp hkey.2.1 t ht
    simp [heq] at this
  have hflight : ∀ p ∈ s.inFlight, p.2.id ≠ task.id := by
    intro p hp heq
    have := List.countP_eq_zero.mp hkey.2.2.1 p hp
    simp [heq] at this
  have htask_mem : task ∈ s.queue := by rw [hq]; exact List.mem_cons_self _ _
  have htaskret := h.qret task htask_mem
  have hlog : (dispatchTask now task rest s).log
      = s.log ++ [LogEntry.dispatch now task.id] := rfl
  have hnext : (dispatchTask now task rest s).nextTaskId = s.nextTaskId := rfl
  refine ⟨?_, ?_, ?_, ?_, ?_, ?_, ?_, h.slt⟩
  · show s.availableSockets - 1 + (s.inFlight ++ [(s.nextDispatchId, task)]).length = cfg.maxSockets
    have := h.sock
    simp only [List.length_append, List.length_cons, List.length_nil]
    omega
  · show WinInv cfg (dispatchTask now task rest s)
    have hw := h.win
    unfold WinInv at hw ⊢
    cases hm : effMaxPerMinute cfg with
    | none =>
        rw [hm] at hw
        show s.availableInWindow.map (· - 1) = none
        rw [hw]; rfl
    | some m =>
        rw [hm] at hw
        obtain ⟨k, hk, hsum⟩ := hw
        have hk0 : k ≠ 0 := by
          intro h0; rw [h0] at hk; exact havail hk
        refine ⟨k - 1, ?_, ?_⟩
        · show s.availableInWindow.map (· - 1) = some (k - 1)
          rw [hk]; rfl
        · show k - 1 + (s.windowDispatches + 1) = m
          omega
  · intro id
    have hc := h.cons id
    simp only [occCount, hq, List.countP_cons] at hc
    show List.countP (fun t => t.id == id) rest
        + List.countP (fun p => p.2.id == id) (s.inFlight ++ [(s.nextDispatchId, task)])
        + settleCount id (s.log ++ [LogEntry.dispatch now task.id])
        = if id < s.nextTaskId then 1 else 0
    rw [settleCount_append_dispatch]
    simp only [List.countP_append, List.countP_cons, List.countP_nil]
    by_cases hid : task.id = id
    · subst hid
      simp [hkey.1] at hc ⊢
      omega
    · have hb : (task.id == id) = false := by simp [hid]
      simp [hb] at hc ⊢
      omega
  · intro t ht
    have htq : t ∈ s.queue := by rw [hq]; exact List.mem_cons_of_mem _ ht
    have hold := h.qret t htq
    rw [hlog, dispatchCount_append_dispatch]
    have hne : task.id ≠ t.id := fun he => (hrest t ht) he.symm
    simp only [hne, if_false]
    simpa using hold
  · intro p hp
    rw [show (dispatchTask now task rest s).inFlight
          = s.inFlight ++ [(s.nextDispatchId, task)] from rfl] at hp
    rcases List.mem_append.mp hp with hin | hnew
    · have hold := h.fret p hin
      have hne : task.id ≠ p.2.id := fun he => (hflight p hin) he.symm
      rw [hlog, dispatchCount_append_dispatch]
      simp only [hne, if_false]
      simpa using hold
    · have hp2 : p = (s.nextDispatchId, task) := by simpa using hnew
      subst hp2
      rw [hlog]
      show dispatchCount task.id (s.log ++ [LogEntry.dispatch now task.id])
          ≤ task.retries + 1 ∧ task.retries ≤ MAX_RETRIES
      rw [dispatchCount_append_dispatch]
      refine ⟨?_, htaskret.2⟩
      have h1 : (if task.id = task.id then 1 else 0) = 1 := by simp
      rw [h1]
      have := htaskret.1
      omega
  · intro id hocc
    have hocc' : List.countP (fun t => t.id == id) rest
        + List.countP (fun p => p.2.id == id) (s.inFlight ++ [(s.nextDispatchId, task)])
        = 0 := hocc
    rw [List.countP_append] at hocc'
    have hsing : List.countP (fun p => p.2.id == id) [(s.nextDispatchId, task)]
        = if task.id = id then 1 else 0 := by
      by_cases hid : task.id = id <;> simp [List.countP_cons, hid]
    rw [hsing] at hocc'
    show dispatchCount id (s.log ++ [LogEntry.dispatch now task.id]) ≤ MAX_RETRIES + 1
    rw [dispatchCount_append_dispatch]
    by_cases hid : task.id = id
    · rw [if_pos hid] at hocc'
      exact absurd hocc' (by omega)
    · rw [if_neg hid] at hocc'
      rw [if_neg hid]
      have hocc0 : occCount id s = 0 := by
        have hsingq : List.countP (fun t => t.id == id) (task :: rest)
            = List.countP (fun t => t.id == id) rest := by
          simp [List.countP_cons, hid]
        show List.countP (fun t => t.id == id) s.queue
            + List.countP (fun p => p.2.id == id) s.inFlight = 0
        rw [hq, hsingq]
        omega
      have := h.gone id hocc0
      omega
  · intro id hge
    rw [hnext] at hge
    rw [hlog]
    show dispatchCount id (s.log ++ [LogEntry.dispatch now task.id]) = 0
    rw [dispatchCount_append_dispatch]
    have hne : task.id ≠ id := by omega
    simp only [hne, if_false]
    have := h.fresh id hge
    omega

/-! ### Field lemmas for the window refresh -/

theorem refreshWindow_availableSockets (cfg : Config) (now : Nat) (s : ClientState) :
    (refreshWindow cfg now s).availableSockets = s.availableSockets := by
  unfold refreshWindow
  cases s.windowStart with
  | none => rfl
  | some ws => dsimp only; split <;> rfl

theorem refreshWindow_queue (cfg : Config) (now : Nat) (s : ClientState) :
    (refreshWindow cfg now s).queue = s.queue := by
  unfold refreshWindow
  cases s.windowStart with
  | none => rfl
  | some ws => dsimp only; split <;> rfl

theorem refreshWindow_inFlight (cfg : Config) (now : Nat) (s : ClientState) :
    (refreshWindow cfg now s).inFlight = s.inFlight := by
  unfold refreshWindow
  cases s.windowStart with
  | none => rfl
  | some ws => dsimp only; split <;> rfl

theorem refreshWindow_log (cfg : Config) (now : Nat) (s : ClientState) :
    (refreshWindow cfg now s).log = s.log := by
  unfold refreshWindow
  cases s.windowStart with
  | none => rfl
  | some ws => dsimp only; split <;> rfl

theorem refreshWindow_sleeping (cfg : Config) (now : Nat) (s : ClientState) :
    (refreshWindow cfg now s).sleeping = s.sleeping := by
  unfold refreshWindow
  cases s.windowStart with
  | none => rfl
  | some ws => dsimp only; split <;> rfl

theorem refreshWindow_timers (cfg : Config) (now : Nat) (s : ClientState) :
    (refreshWindow cfg now s).timers = s.timers := by
  unfold refreshWindow
  cases s.windowStart with
  | none => rfl
  | some ws => dsimp only; split <;> rfl

/-! ### Admission preserves the invariant -/

theorem doNextRequest_inv {cfg : Config} {s : ClientState} (h : Inv cfg s) (now : Nat) :
    Inv cfg (doNextRequest cfg now s) := by
  refine doNextRequest_cases cfg now s (Inv cfg) ?_ ?_ ?_ ?_
  · intro _; exact h
  · intro _ _; exact sleep_inv (refreshWindow_inv h now) now _
  · intro _ _ _; exact refreshWindow_inv h now
  · intro task rest h1 h2 hq
    push_neg at h1
    exact dispatchTask_inv (refreshWindow_inv h now) hq
      (by rw [refreshWindow_availableSockets]; exact h1.1) h2 now

/-! ### Submission preserves the invariant -/

theorem countP_enqueueTask (p : Task → Bool) (t : Task) (q : List Task) :
    List.countP p (enqueueTask t q) = List.countP p q + (if p t then 1 else 0) := by
  unfold enqueueTask
  split
  · rw [List.countP_cons]
  · rw [List.countP_append, List.countP_cons, List.countP_nil]
    omega

theorem mem_enqueueTask {t' t : Task} {q : List Task} (h : t' ∈ enqueueTask t q) :
    t' = t ∨ t' ∈ q := by
  unfold enqueueTask at h
  split at h
  · rcases List.mem_cons.mp h with h | h
    · exact Or.inl h
    · exact Or.inr h
  · rcases List.mem_append.mp h with h | h
    · exact Or.inr h
    · exact Or.inl (by simpa using h)

theorem enqueue_inv {cfg : Config} {s : ClientState} (h : Inv cfg s) (opts : SubmitOptions) :
    Inv cfg { s with nextTaskId := s.nextTaskId + 1
                     queue := enqueueTask (mkTask s.nextTaskId opts) s.queue } := by
  have hid : (mkTask s.nextTaskId opts).id = s.nextTaskId := rfl
  have hfr : dispatchCount s.nextTaskId s.log = 0 := h.fresh s.nextTaskId (Nat.le_refl _)
  refine ⟨h.sock, h.win, ?_, ?_, h.fret, ?_, ?_, h.slt⟩
  · intro id
    have hc := h.cons id
    show List.countP (fun t => t.id == id) (enqueueTask (mkTask s.nextTaskId opts) s.queue)
        + List.countP (fun p => p.2.id == id) s.inFlight
        + settleCount id s.log
        = if id < s.nextTaskId + 1 then 1 else 0
    rw [countP_enqueueTask]
    simp only [occCount] at hc
    by_cases he : s.nextTaskId = id
    · have hb : ((mkTask s.nextTaskId opts).id == id) = true := by
        rw [hid, he]; exact beq_self_eq_true id
      rw [if_pos hb]
      rw [if_neg (by omega)] at hc
      rw [if_pos (by omega)]
      omega
    · have hb : ((mkTask s.nextTaskId opts).id == id) = false := by
        rw [hid]; simp [he]
      rw [if_neg (by simp [hb])]
      by_cases hlt : id < s.nextTaskId
      · rw [if_pos hlt] at hc
        rw [if_pos (by omega)]
        omega
      · rw [if_neg hlt] at hc
        rw [if_neg (by omega)]
        omega
  · intro t ht
    rcases mem_enqueueTask ht with he | hm
    · subst he
      constructor
      · rw [hid, hfr]
        exact Nat.zero_le _
      · show (if opts.retry = false then MAX_RETRIES else 0) ≤ MAX_RETRIES
        split
        · exact Nat.le_refl _
        · exact Nat.zero_le _
    · exact h.qret t hm
  · intro id hocc
    apply h.gone id
    show occCount id s = 0
    have : List.countP (fun t => t.id == id) (enqueueTask (mkTask s.nextTaskId opts) s.queue)
        + List.countP (fun p => p.2.id == id) s.inFlight = 0 := hocc
    rw [countP_enqueueTask] at this
    simp only [occCount]
    omega
  · intro id hge
    have hge' : s.nextTaskId + 1 ≤ id := hge
    exact h.fresh id (by omega)

theorem submitTask_inv {cfg : Config} {s : ClientState} (h : Inv cfg s)
    (now : Nat) (opts : SubmitOptions) :
    Inv cfg (submitTask cfg now opts s) :=
  doNextRequest_inv (enqueue_inv h opts) now

/-! ### Completion path: invariant with the completed task in hand -/

/-- Invariant of the intermediate state inside the completion callback:
the completed dispatch has been removed from `inFlight` (and the socket
released) but the task has neither been requeued nor settled yet. -/
structure MidInv (cfg : Config) (s : ClientState) (task : Task) : Prop where
  sock : s.availableSockets + s.inFlight.length = cfg.maxSockets
  win : WinInv cfg s
  cons : ∀ id, occCount id s + settleCount id s.log + (if task.id = id then 1 else 0)
           = if id < s.nextTaskId then 1 else 0
  qret : ∀ t ∈ s.queue, dispatchCount t.id s.log ≤ t.retries ∧ t.retries ≤ MAX_RETRIES
  fret : ∀ p ∈ s.inFlight, dispatchCount p.2.id s.log ≤ p.2.retries + 1 ∧ p.2.retries ≤ MAX_RETRIES
  tret : dispatchCount task.id s.log ≤ task.retries + 1 ∧ task.retries ≤ MAX_RETRIES
  gone : ∀ id, id ≠ task.id → occCount id s = 0 → dispatchCount id s.log ≤ MAX_RETRIES + 1
  fresh : ∀ id, s.nextTaskId ≤ id → dispatchCount id s.log = 0
  slt : s.sleeping = true → s.timers ≠ []

theorem mid_of_inv {cfg : Config} {s : ClientState} {did : Nat} {task : Task}
    {rest : List (Nat × Task)} (h : Inv cfg s)
    (ht : takeFlight did s.inFlight = some (task, rest)) (n : Nat) :
    MidInv cfg { s with lastNow := n, inFlight := rest
                        availableSockets := s.availableSockets + 1 } task := by
  have hperm := takeFlight_perm ht
  have hlen : s.inFlight.length = rest.length + 1 := by
    have := hperm.length_eq
    simpa using this
  have hmemt : (did, task) ∈ s.inFlight :=
    hperm.mem_iff.mpr (List.mem_cons_self _ _)
  refine ⟨?_, h.win, ?_, h.qret, ?_, ?_, ?_, h.fresh, h.slt⟩
  · show s.availableSockets + 1 + rest.length = cfg.maxSockets
    have := h.sock
    omega
  · intro id
    have hc := h.cons id
    have hcp : List.countP (fun p => p.2.id == id) s.inFlight
        = List.countP (fun p => p.2.id == id) rest + (if task.id = id then 1 else 0) := by
      rw [List.Perm.countP_eq _ hperm, List.countP_cons]
      by_cases hid : task.id = id
      · simp [hid]
      · simp [hid]
    simp only [occCount] at hc
    rw [hcp] at hc
    show List.countP (fun t => t.id == id) s.queue
        + List.countP (fun p => p.2.id == id) rest
        + settleCount id s.log + (if task.id = id then 1 else 0)
        = if id < s.nextTaskId then 1 else 0
    omega
  · intro p hp
    exact h.fret p (hperm.mem_iff.mpr (List.mem_cons_of_mem _ hp))
  · exact h.fret (did, task) hmemt
  · intro id hne hocc
    apply h.gone id
    have hocc' : List.countP (fun t => t.id == id) s.queue
        + List.countP (fun p => p.2.id == id) rest = 0 := hocc
    show occCount id s = 0
    simp only [occCount]
    rw [List.Perm.countP_eq _ hperm, List.countP_cons]
    have hb : ((did, task).2.id == id) = false := by
      have hne' : task.id ≠ id := fun he => hne he.symm
      simpa using hne'
    rw [hb]
    simp only [Bool.false_eq_true, if_false]
    omega

theorem mid_withUntilSleep {cfg : Config} {s : ClientState} {task : Task}
    (h : MidInv cfg s task) (u : Nat) :
    MidInv cfg { s with untilSleep := u } task :=
  { sock := h.sock, win := h.win, cons := h.cons, qret := h.qret, fret := h.fret,
    tret := h.tret, gone := h.gone, fresh := h.fresh, slt := h.slt }

theorem sleep_mid {cfg : Config} {s : ClientState} {task : Task}
    (h : MidInv cfg s task) (now d : Nat) :
    MidInv cfg (sleep now d s) task :=
  { sock := h.sock, win := h.win, cons := h.cons, qret := h.qret, fret := h.fret,
    tret := h.tret, gone := h.gone, fresh := h.fresh, slt := fun _ => by simp [sleep] }

theorem sleepIfNecessary_mid {cfg : Config} {s : ClientState} {task : Task}
    (h : MidInv cfg s task) (now : Nat) :
    MidInv cfg (sleepIfNecessary cfg now s) task := by
  unfold sleepIfNecessary
  split
  · exact h
  · dsimp only
    split
    · split
      · exact sleep_mid (mid_withUntilSleep h _) now cfg.sleepFor
      · exact mid_withUntilSleep h _
    · split
      · exact sleep_mid (mid_withUntilSleep h _) now cfg.sleepFor
      · exact mid_withUntilSleep h _

/-! ### Retry-or-settle restores the invariant -/

theorem countP_cons_id (t : Task) (q : List Task) (id : Nat) :
    List.countP (fun x => x.id == id) (t :: q)
      = List.countP (fun x => x.id == id) q + (if t.id = id then 1 else 0) := by
  rw [List.countP_cons]
  by_cases hid : t.id = id <;> simp [hid]

theorem handleOutcome_inv {cfg : Config} {s : ClientState} {task : Task}
    (h : MidInv cfg s task) (now : Nat) (outcome : Outcome) :
    Inv cfg (handleOutcome cfg now task outcome s) := by
  unfold handleOutcome
  split
  · rename_i hcond
    apply sleep_inv
    refine ⟨h.sock, h.win, ?_, ?_, h.fret, ?_, h.fresh, h.slt⟩
    · intro id
      have hc := h.cons id
      simp only [occCount] at hc
      show List.countP (fun t => t.id == id) ({ task with retries := task.retries + 1 } :: s.queue)
          + List.countP (fun p => p.2.id == id) s.inFlight
          + settleCount id s.log
          = if id < s.nextTaskId then 1 else 0
      rw [countP_cons_id]
      have hre : ({ task with retries := task.retries + 1 } : Task).id = task.id := rfl
      rw [hre]
      omega
    · intro t ht
      rcases List.mem_cons.mp ht with he | hm
      · subst he
        refine ⟨?_, ?_⟩
        · show dispatchCount task.id s.log ≤ task.retries + 1
          exact h.tret.1
        · show task.retries + 1 ≤ MAX_RETRIES
          omega
      · exact h.qret t hm
    · intro id hocc
      have hocc' : List.countP (fun t => t.id == id)
            ({ task with retries := task.retries + 1 } :: s.queue)
          + List.countP (fun p => p.2.id == id) s.inFlight = 0 := hocc
      rw [countP_cons_id] at hocc'
      have hre : ({ task with retries := task.retries + 1 } : Task).id = task.id := rfl
      rw [hre] at hocc'
      by_cases hid : task.id = id
      · exfalso
        rw [if_pos hid] at hocc'
        omega
      · apply h.gone id (fun he => hid he.symm)
        rw [if_neg hid] at hocc'
        show List.countP (fun t => t.id == id) s.queue
            + List.countP (fun p => p.2.id == id) s.inFlight = 0
        omega
  · rename_i hcond
    cases outcome with
    | transportError connReset =>
        show Inv cfg { s with log := s.log ++ [LogEntry.rejected task.id connReset] }
        refine ⟨h.sock, h.win, ?_, ?_, ?_, ?_, ?_, h.slt⟩
        · intro id
          have hc := h.cons id
          show occCount id s + settleCount id (s.log ++ [LogEntry.rejected task.id connReset])
              = if id < s.nextTaskId then 1 else 0
          rw [settleCount_append_rejected]
          omega
        · intro t ht
          have ht' : t ∈ s.queue := ht
          have := h.qret t ht'
          show dispatchCount t.id (s.log ++ [LogEntry.rejected task.id connReset]) ≤ t.retries
              ∧ t.retries ≤ MAX_RETRIES
          rwa [dispatchCount_append_rejected]
        · intro p hp
          have hp' : p ∈ s.inFlight := hp
          have := h.fret p hp'
          show dispatchCount p.2.id (s.log ++ [LogEntry.rejected task.id connReset]) ≤ p.2.retries + 1
              ∧ p.2.retries ≤ MAX_RETRIES
          rwa [dispatchCount_append_rejected]
        · intro id hocc
          have hocc' : occCount id s = 0 := hocc
          show dispatchCount id (s.log ++ [LogEntry.rejected task.id connReset]) ≤ MAX_RETRIES + 1
          rw [dispatchCount_append_rejected]
          by_cases hid : id = task.id
          · subst hid
            have := h.tret
            omega
          · exact h.gone id hid hocc'
        · intro id hge
          have hge' : s.nextTaskId ≤ id := hge
          show dispatchCount id (s.log ++ [LogEntry.rejected task.id connReset]) = 0
          rw [dispatchCount_append_rejected]
          exact h.fresh id hge'
    | response statusCode =>
        show Inv cfg { s with log := s.log ++ [LogEntry.resolved task.id statusCode] }
        refine ⟨h.sock, h.win, ?_, ?_, ?_, ?_, ?_, h.slt⟩
        · intro id
          have hc := h.cons id
          show occCount id s + settleCount id (s.log ++ [LogEntry.resolved task.id statusCode])
              = if id < s.nextTaskId then 1 else 0
          rw [settleCount_append_resolved]
          omega
        · intro t ht
          have ht' : t ∈ s.queue := ht
          have := h.qret t ht'
          show dispatchCount t.id (s.log ++ [LogEntry.resolved task.id statusCode]) ≤ t.retries
              ∧ t.retries ≤ MAX_RETRIES
          rwa [dispatchCount_append_resolved]
        · intro p hp
          have hp' : p ∈ s.inFlight := hp
          have := h.fret p hp'
          show dispatchCount p.2.id (s.log ++ [LogEntry.resolved task.id statusCode]) ≤ p.2.retries + 1
              ∧ p.2.retries ≤ MAX_RETRIES
          rwa [dispatchCount_append_resolved]
        · intro id hocc
          have hocc' : occCount id s = 0 := hocc
          show dispatchCount id (s.log ++ [LogEntry.resolved task.id statusCode]) ≤ MAX_RETRIES + 1
          rw [dispatchCount_append_resolved]
          by_cases hid : id = task.id
          · subst hid
            have := h.tret
            omega
          · exact h.gone id hid hocc'
        · intro id hge
          have hge' : s.nextTaskId ≤ id := hge
          show dispatchCount id (s.log ++ [LogEntry.resolved task.id statusCode]) = 0
          rw [dispatchCount_append_resolved]
          exact h.fresh id hge'

/-! ### Step-level preservation and reachability -/

theorem onComplete_inv {cfg : Config} {s : ClientState} {task : Task}
    (h : MidInv cfg { s with availableSockets := s.availableSockets + 1 } task)
    (now : Nat) (outcome : Outcome) :
    Inv cfg (onComplete cfg now task outcome s) :=
  doNextRequest_inv (handleOutcome_inv (sleepIfNecessary_mid h now) now outcome) now

theorem onTimer_inv {cfg : Config} {s : ClientState} (h : Inv cfg s) (now idx : Nat) :
    Inv cfg (onTimer cfg now idx s) := by
  apply doNextRequest_inv
  exact { sock := h.sock, win := h.win, cons := h.cons, qret := h.qret, fret := h.fret,
          gone := h.gone, fresh := h.fresh, slt := fun hx => by simp at hx }

theorem step_inv {cfg : Config} {s s' : ClientState} {e : Event}
    (h : Inv cfg s) (hs : step cfg s e = some s') : Inv cfg s' := by
  cases e with
  | submit now opts =>
      simp only [step] at hs
      split at hs
      · rw [Option.some.injEq] at hs
        subst hs
        exact submitTask_inv (h.withLastNow now) now opts
      · exact absurd hs (by simp)
  | complete now dispatchId outcome =>
      simp only [step] at hs
      split at hs
      · rename_i hle
        split at hs
        · exact absurd hs (by simp)
        · rename_i task rest htf
          rw [Option.some.injEq] at hs
          subst hs
          exact onComplete_inv (mid_of_inv h htf now) now outcome
      · exact absurd hs (by simp)
  | timerFired now idx =>
      simp only [step] at hs
      split at hs
      · rw [Option.some.injEq] at hs
        subst hs
        exact onTimer_inv (h.withLastNow now) now idx
      · exact absurd hs (by simp)

theorem runFrom_inv {cfg : Config} :
    ∀ {evts : List Event} {s s' : ClientState},
      Inv cfg s → runFrom cfg s evts = some s' → Inv cfg s' := by
  intro evts
  induction evts with
  | nil =>
      intro s s' h hr
      rw [runFrom, Option.some.injEq] at hr
      subst hr
      exact h
  | cons e rest ih =>
      intro s s' h hr
      rw [runFrom] at hr
      split at hr
      · exact absurd hr (by simp)
      · rename_i s1 hstep
        exact ih (step_inv h hstep) hr

theorem run_inv {cfg : Config} {evts : List Event} {s : ClientState}
    (hr : run cfg evts = some s) : Inv cfg s :=
  runFrom_inv (initState_inv cfg) hr

/-! ### Deadlock freedom: pending work implies a pending wake-up -/

/-- Property of every admission output: a nonempty queue is always
accompanied by a sleeping flag, socket exhaustion, in-flight work,
or a pending timer. -/
def DlProp (s : ClientState) : Prop :=
  s.queue = [] ∨ s.sleeping = true ∨ s.availableSockets = 0
    ∨ s.inFlight ≠ [] ∨ s.timers ≠ []

theorem doNextRequest_dl (cfg : Config) (now : Nat) (s : ClientState) :
    DlProp (doNextRequest cfg now s) := by
  refine doNextRequest_cases cfg now s DlProp ?_ ?_ ?_ ?_
  · intro hid
    rcases hid with h0 | hsl
    · exact Or.inr (Or.inr (Or.inl h0))
    · exact Or.inr (Or.inl hsl)
  · intro _ _
    exact Or.inr (Or.inl rfl)
  · intro _ _ hq
    exact Or.inl hq
  · intro task rest _ _ _
    refine Or.inr (Or.inr (Or.inr (Or.inl ?_)))
    show (refreshWindow cfg now s).inFlight ++ [((refreshWindow cfg now s).nextDispatchId, task)] ≠ []
    simp

theorem step_dl {cfg : Config} {s s' : ClientState} {e : Event}
    (hs : step cfg s e = some s') : DlProp s' := by
  cases e with
  | submit now opts =>
      simp only [step] at hs
      split at hs
      · rw [Option.some.injEq] at hs
        subst hs
        exact doNextRequest_dl cfg now _
      · exact absurd hs (by simp)
  | complete now dispatchId outcome =>
      simp only [step] at hs
      split at hs
      · split at hs
        · exact absurd hs (by simp)
        · rw [Option.some.injEq] at hs
          subst hs
          exact doNextRequest_dl cfg now _
      · exact absurd hs (by simp)
  | timerFired now idx =>
      simp only [step] at hs
      split at hs
      · rw [Option.some.injEq] at hs
        subst hs
        exact doNextRequest_dl cfg now _
      · exact absurd hs (by simp)

theorem runFrom_dl {cfg : Config} :
    ∀ {evts : List Event} {s s' : ClientState},
      DlProp s → runFrom cfg s evts = some s' → DlProp s' := by
  intro evts
  induction evts with
  | nil =>
      intro s s' h hr
      rw [runFrom, Option.some.injEq] at hr
      subst hr
      exact h
  | cons e rest ih =>
      intro s s' h hr
      rw [runFrom] at hr
      split at hr
      · exact absurd hr (by simp)
      · rename_i s1 hstep
        exact ih (step_dl hstep) hr

theorem run_dl {cfg : Config} {evts : List Event} {s : ClientState}
    (hr : run cfg evts = some s) : DlProp s :=
  runFrom_dl (Or.inl rfl) hr

/-! ### Concrete configurations and traces used in claim theorems -/

/-- Concurrency 1, cooldown disabled, unlimited rate window. -/
def cfgA : Config := { maxSockets := 1, sleepEvery := 0, sleepFor := 1000, maxPerMinute := 0 }

/-- Concurrency 1, cooldown after every request, unlimited rate window. -/
def cfgB : Config := { maxSockets := 1, sleepEvery := 1, sleepFor := 1000, maxPerMinute := 0 }

/-- Concurrency 4, cooldown disabled, at most 2 dispatches per window. -/
def cfgC : Config := { maxSockets := 4, sleepEvery := 0, sleepFor := 1000, maxPerMinute := 2 }

def defaultOpts : SubmitOptions := {}

def priorityOpts : SubmitOptions := { immediate := true }

def noRetryOpts : SubmitOptions := { retry := false }

def c1Events : List Event :=
  [Event.submit 0 defaultOpts, Event.submit 0 defaultOpts,
   Event.complete 0 0 (Outcome.response 200)]

/-! ### Claims -/

/-- C1: for every event trace, the number of dispatched requests whose
completion callback has not yet run (`inFlight`) never exceeds the
configured maximum concurrency, and the `availableSockets` counter
stays in `[0, maxSockets]`; the two are exact complements, which is
the statement that the counter is decremented exactly once per
dispatch and incremented exactly once per completion. -/
theorem claim_C1_concurrency_bound (cfg : Config) (evts : List Event) (s : ClientState)
    (hr : run cfg evts = some s) :
    s.inFlight.length ≤ cfg.maxSockets
    ∧ s.availableSockets ≤ cfg.maxSockets
    ∧ s.availableSockets + s.inFlight.length = cfg.maxSockets := by
  have h := (run_inv hr).sock
  exact ⟨by omega, by omega, h⟩

theorem claim_C1_witness :
    ((run cfgA c1Events).getD (initState cfgA)).inFlight.length ≤ cfgA.maxSockets
    ∧ ((run cfgA c1Events).getD (initState cfgA)).availableSockets ≤ cfgA.maxSockets
    ∧ ((run cfgA c1Events).getD (initState cfgA)).availableSockets
        + ((run cfgA c1Events).getD (initState cfgA)).inFlight.length = cfgA.maxSockets :=
  claim_C1_concurrency_bound cfgA c1Events _ rfl

def c2Events : List Event :=
  [Event.submit 59997 defaultOpts, Event.submit 59999 defaultOpts,
   Event.submit 59999 defaultOpts, Event.timerFired 119998 0,
   Event.submit 119998 defaultOpts]

/-- C2 counterexample: with a per-window budget of 2, the trace
`c2Events` produces dispatches at times 59997, 59999, 119998, 119998;
the time window `[59999, 59999 + WINDOW_SIZE)` of exactly the
configured duration contains 3 of them, exceeding the budget.  The
code bounds only its own fixed windows (reset-aligned), not every
window of the configured duration, so the claim as stated is false. -/
theorem claim_C2_counterexample :
    effMaxPerMinute cfgC = some 2
    ∧ dispatchesWithin 59999 (finalLog cfgC c2Events) = 3
    ∧ 2 < 3 := by
  refine ⟨rfl, ?_, by decide⟩
  rfl

/-- C2 amended: (1) within each of the fixed rate windows of the
scheduler itself (delimited by budget resets), the number of dispatches never
exceeds the configured per-window maximum — the remaining budget and
the ghost dispatch counter always sum to the maximum; (2) when an
admission attempt finds the budget exhausted (and the window has not
yet elapsed), the scheduler enters a sleep whose timer is due exactly
at the end of the current fixed window, `windowStart + WINDOW_SIZE`. -/
theorem claim_C2_fixed_window_bound :
    (∀ (cfg : Config) (evts : List Event) (s : ClientState) (m : Nat),
        run cfg evts = some s → effMaxPerMinute cfg = some m →
        s.windowDispatches ≤ m
        ∧ ∃ k, s.availableInWindow = some k ∧ k + s.windowDispatches = m)
    ∧ (∀ (cfg : Config) (now ws : Nat) (s : ClientState),
        s.sleeping = false → s.availableSockets ≠ 0 →
        s.windowStart = some ws → now - ws ≤ WINDOW_SIZE → ws ≤ now →
        s.availableInWindow = some 0 →
        doNextRequest cfg now s = sleep now (WINDOW_SIZE - (now - ws)) s
        ∧ (doNextRequest cfg now s).sleeping = true
        ∧ (doNextRequest cfg now s).timers = s.timers ++ [ws + WINDOW_SIZE]) := by
  constructor
  · intro cfg evts s m hr hm
    have hw := (run_inv hr).win
    unfold WinInv at hw
    rw [hm] at hw
    obtain ⟨k, hk, hsum⟩ := hw
    exact ⟨by omega, k, hk, hsum⟩
  · intro cfg now ws s hsl hsock hws hle hwle hzero
    have hrw : refreshWindow cfg now s = s := by
      unfold refreshWindow
      rw [hws]
      dsimp only
      rw [if_neg (by omega)]
    have hneg : ¬(s.availableSockets = 0 ∨ s.sleeping = true) := by
      intro hc
      rcases hc with hc | hc
      · exact hsock hc
      · rw [hsl] at hc; exact absurd hc (by simp)
    have hd : doNextRequest cfg now s
        = sleep now (WINDOW_SIZE - (now - s.windowStart.getD now)) s := by
      unfold doNextRequest
      rw [if_neg hneg]
      dsimp only
      rw [hrw, if_pos hzero]
    rw [hws] at hd
    have hget : (Option.some ws).getD now = ws := rfl
    rw [hget] at hd
    refine ⟨hd, ?_, ?_⟩
    · rw [hd]; rfl
    · rw [hd]
      show s.timers ++ [now + (WINDOW_SIZE - (now - ws))] = s.timers ++ [ws + WINDOW_SIZE]
      have : now + (WINDOW_SIZE - (now - ws)) = ws + WINDOW_SIZE := by omega
      rw [this]

def c2WitState : ClientState :=
  { initState cfgC with windowStart := some 0, availableInWindow := some 0 }

theorem claim_C2_witness :
    (((run cfgC [Event.submit 0 defaultOpts]).getD (initState cfgC)).windowDispatches ≤ 2
      ∧ ∃ k, ((run cfgC [Event.submit 0 defaultOpts]).getD (initState cfgC)).availableInWindow = some k
          ∧ k + ((run cfgC [Event.submit 0 defaultOpts]).getD (initState cfgC)).windowDispatches = 2)
    ∧ (doNextRequest cfgC 10 c2WitState = sleep 10 (WINDOW_SIZE - (10 - 0)) c2WitState
      ∧ (doNextRequest cfgC 10 c2WitState).sleeping = true
      ∧ (doNextRequest cfgC 10 c2WitState).timers = c2WitState.timers ++ [0 + WINDOW_SIZE]) :=
  ⟨claim_C2_fixed_window_bound.1 cfgC [Event.submit 0 defaultOpts] _ 2 rfl rfl,
   claim_C2_fixed_window_bound.2 cfgC 10 0 c2WitState rfl (by decide) rfl (by decide)
     (by decide) rfl⟩

def c3Events : List Event :=
  [Event.submit 0 noRetryOpts, Event.complete 0 0 (Outcome.response 503)]

/-- C3 counterexample: a task submitted with `retry: false` whose single
dispatch completes with HTTP 503 — retriable under the default
predicate — has its promise RESOLVED with that 503 response (the final
log entry is `resolved`, and no `rejected` entry exists), because the
settle arm is `else if (error) reject else resolve` and there is no
transport error.  This refutes "the returned promise rejects … rather
than resolving" and "a task submitted with noRetry that receives a
retriable response rejects immediately". -/
theorem claim_C3_counterexample :
    finalLog cfgA c3Events = [LogEntry.dispatch 0 0, LogEntry.resolved 0 503]
    ∧ (finalLog cfgA c3Events).countP
        (fun e => match e with | LogEntry.rejected _ _ => true | _ => false) = 0 := by
  exact ⟨rfl, rfl⟩

/-- C3 amended: once the retry budget is exhausted, a final attempt
that fails with a transport error rejects with that error, but a final
attempt that completes with a response — even one the retry predicate
classifies as retriable — resolves the promise with that response.  In
particular a `noRetry` task (whose retry counter starts at
`MAX_RETRIES`) that receives a retriable response resolves immediately
after its single dispatch. -/
theorem claim_C3_exhausted_resolves (cfg : Config) (now : Nat) (task : Task)
    (s : ClientState) (hex : ¬ task.retries < MAX_RETRIES) :
    (∀ st : Nat, handleOutcome cfg now task (Outcome.response st) s
        = { s with log := s.log ++ [LogEntry.resolved task.id st] })
    ∧ (∀ c : Bool, handleOutcome cfg now task (Outcome.transportError c) s
        = { s with log := s.log ++ [LogEntry.rejected task.id c] })
    ∧ (∀ opts : SubmitOptions, opts.retry = false → (mkTask task.id opts).retries = MAX_RETRIES) := by
  refine ⟨?_, ?_, ?_⟩
  · intro st
    unfold handleOutcome
    rw [if_neg (fun hc => hex hc.2)]
  · intro c
    unfold handleOutcome
    rw [if_neg (fun hc => hex hc.2)]
  · intro opts hopts
    unfold mkTask
    simp [hopts]

def c3WitTask : Task := mkTask 0 noRetryOpts

theorem claim_C3_witness :
    (∀ st : Nat, handleOutcome cfgA 0 c3WitTask (Outcome.response st) (initState cfgA)
        = { initState cfgA with
              log := (initState cfgA).log ++ [LogEntry.resolved c3WitTask.id st] })
    ∧ (∀ c : Bool, handleOutcome cfgA 0 c3WitTask (Outcome.transportError c) (initState cfgA)
        = { initState cfgA with
              log := (initState cfgA).log ++ [LogEntry.rejected c3WitTask.id c] })
    ∧ (∀ opts : SubmitOptions, opts.retry = false → (mkTask c3WitTask.id opts).retries = MAX_RETRIES) :=
  claim_C3_exhausted_resolves cfgA 0 c3WitTask (initState cfgA) (by decide)

def c4Events : List Event :=
  [Event.submit 0 defaultOpts, Event.complete 0 0 (Outcome.response 503),
   Event.timerFired 2000 0, Event.complete 2000 1 (Outcome.response 503),
   Event.timerFired 6000 0, Event.complete 6000 2 (Outcome.response 503),
   Event.timerFired 12000 0, Event.complete 12000 3 (Outcome.response 200)]

def c4AllFailEvents : List Event :=
  [Event.submit 0 defaultOpts, Event.complete 0 0 (Outcome.response 503),
   Event.timerFired 2000 0, Event.complete 2000 1 (Outcome.response 503),
   Event.timerFired 6000 0, Event.complete 6000 2 (Outcome.response 503),
   Event.timerFired 12000 0, Event.complete 12000 3 (Outcome.response 503)]

/-- C4: (1) the spec scenario: with the default retry predicate, a
task answered by three consecutive HTTP 503 responses and then a 200
is dispatched exactly 4 = `MAX_RETRIES + 1` times and its promise
resolves with the 200 response; (2) in every trace no task is
dispatched more than `MAX_RETRIES + 1` times; (3) a task whose
attempts are all retriable failures is dispatched exactly
`MAX_RETRIES + 1` times. -/
theorem claim_C4_retry_dispatch_count :
    (finalLog cfgA c4Events
        = [LogEntry.dispatch 0 0, LogEntry.dispatch 2000 0, LogEntry.dispatch 6000 0,
           LogEntry.dispatch 12000 0, LogEntry.resolved 0 200]
      ∧ dispatchCount 0 (finalLog cfgA c4Events) = MAX_RETRIES + 1)
    ∧ (∀ (cfg : Config) (evts : List Event) (s : ClientState) (id : Nat),
        run cfg evts = some s → dispatchCount id s.log ≤ MAX_RETRIES + 1)
    ∧ dispatchCount 0 (finalLog cfgA c4AllFailEvents) = MAX_RETRIES + 1 := by
  refine ⟨⟨rfl, rfl⟩, ?_, rfl⟩
  intro cfg evts s id hr
  have h := run_inv hr
  by_cases hocc : occCount id s = 0
  · exact h.gone id hocc
  · simp only [occCount] at hocc
    by_cases hq : List.countP (fun t => t.id == id) s.queue = 0
    · have hf : 0 < List.countP (fun p => p.2.id == id) s.inFlight := by omega
      obtain ⟨p, hp, hpid⟩ := List.countP_pos_iff.mp hf
      have := h.fret p hp
      have hid : p.2.id = id := by simpa using hpid
      rw [hid] at this
      omega
    · have hf : 0 < List.countP (fun t => t.id == id) s.queue := by omega
      obtain ⟨t, ht, htid⟩ := List.countP_pos_iff.mp hf
      have := h.qret t ht
      have hid : t.id = id := by simpa using htid
      rw [hid] at this
      omega

theorem claim_C4_witness :
    dispatchCount 0 ((run cfgA c4Events).getD (initState cfgA)).log ≤ MAX_RETRIES + 1 :=
  claim_C4_retry_dispatch_count.2.1 cfgA c4Events _ 0 rfl

def c5Events : List Event :=
  [Event.submit 0 defaultOpts, Event.submit 0 priorityOpts, Event.submit 0 priorityOpts,
   Event.complete 0 0 (Outcome.response 200)]

/-- C5 counterexample: tasks 1 and 2 are both priority tasks, task 1
submitted before task 2 (ids are assigned in submission order), while
task 0 occupies the single socket.  When the socket frees, task 2 is
dispatched and task 1 is still queued: within the priority class the
scheduler is LIFO (head insertion), not FIFO, so the earlier-submitted
task is dispatched strictly later. -/
theorem claim_C5_counterexample :
    finalLog cfgA c5Events
      = [LogEntry.dispatch 0 0, LogEntry.resolved 0 200, LogEntry.dispatch 0 2]
    ∧ finalQueueIds cfgA c5Events = [1] := by
  exact ⟨rfl, rfl⟩

def c5FifoEvents : List Event :=
  [Event.submit 0 defaultOpts, Event.submit 0 defaultOpts, Event.submit 0 defaultOpts,
   Event.submit 0 priorityOpts,
   Event.complete 0 0 (Outcome.response 200), Event.complete 0 1 (Outcome.response 200),
   Event.complete 0 2 (Outcome.response 200)]

/-- C5 amended: (1) a priority task is inserted at the queue head and a
non-priority task is appended at the tail, so a queued priority task is
dispatched before every non-priority task that was already queued when
it was submitted, and non-priority tasks are FIFO among themselves
(absent retries) — but among queued priority tasks the MOST RECENTLY
submitted is dispatched first (LIFO), not FIFO; (2) admission never
preempts an in-flight task; (3) scenario: with tasks 0,1,2 non-priority
and 3 priority, the dispatch order is 0, 3, 1, 2. -/
theorem claim_C5_priority_ordering :
    (∀ (task : Task) (q : List Task), task.immediate = true →
        enqueueTask task q = task :: q)
    ∧ (∀ (task : Task) (q : List Task), task.immediate = false →
        enqueueTask task q = q ++ [task])
    ∧ (∀ (cfg : Config) (now : Nat) (s : ClientState),
        ∃ added, (doNextRequest cfg now s).inFlight = s.inFlight ++ added)
    ∧ finalLog cfgA c5FifoEvents
        = [LogEntry.dispatch 0 0, LogEntry.resolved 0 200, LogEntry.dispatch 0 3,
           LogEntry.resolved 3 200, LogEntry.dispatch 0 1, LogEntry.resolved 1 200,
           LogEntry.dispatch 0 2] := by
  refine ⟨?_, ?_, doNextRequest_inFlight_extend, rfl⟩
  · intro task q h
    unfold enqueueTask
    rw [if_pos h]
  · intro task q h
    unfold enqueueTask
    rw [if_neg (by rw [h]; simp)]

def c5WitTask : Task := mkTask 7 priorityOpts

theorem claim_C5_witness :
    enqueueTask c5WitTask [] = [c5WitTask]
    ∧ enqueueTask (mkTask 8 defaultOpts) [c5WitTask]
        = [c5WitTask] ++ [mkTask 8 defaultOpts] :=
  ⟨claim_C5_priority_ordering.1 c5WitTask [] rfl,
   claim_C5_priority_ordering.2.1 (mkTask 8 defaultOpts) [c5WitTask] rfl⟩

/-- C6: (1) a connection-reset transport error on a task with retry
budget left is retried — the task is re-inserted at the queue head
with its counter bumped and a backoff sleep starts — regardless of the
caller-supplied retry predicate (which is never consulted for
transport errors), and only while `retries < MAX_RETRIES`; (2) a
transport error that is not a connection reset is rejected to the
caller immediately, without any retry, whatever the predicate and the
remaining budget. -/
theorem claim_C6_connreset_always_retried (cfg : Config) (now : Nat) (task : Task)
    (s : ClientState) (hbudget : task.retries < MAX_RETRIES) :
    handleOutcome cfg now task (Outcome.transportError true) s
      = sleep now (backoffDuration cfg (task.retries + 1))
          { s with queue := { task with retries := task.retries + 1 } :: s.queue }
    ∧ (∀ (task' : Task) (s' : ClientState),
        handleOutcome cfg now task' (Outcome.transportError false) s'
          = { s' with log := s'.log ++ [LogEntry.rejected task'.id false] }) := by
  constructor
  · unfold handleOutcome
    rw [if_pos ⟨rfl, hbudget⟩]
  · intro task' s'
    unfold handleOutcome
    rw [if_neg (fun hc => by exact absurd hc.1 (by simp [shouldRetry]))]

def c6WitTask : Task := mkTask 0 defaultOpts

theorem claim_C6_witness :
    handleOutcome cfgA 5 c6WitTask (Outcome.transportError true) (initState cfgA)
      = sleep 5 (backoffDuration cfgA (c6WitTask.retries + 1))
          { initState cfgA with
              queue := { c6WitTask with retries := c6WitTask.retries + 1 }
                :: (initState cfgA).queue }
    ∧ (∀ (task' : Task) (s' : ClientState),
        handleOutcome cfgA 5 task' (Outcome.transportError false) s'
          = { s' with log := s'.log ++ [LogEntry.rejected task'.id false] }) :=
  claim_C6_connreset_always_retried cfgA 5 c6WitTask (initState cfgA) (by decide)

/-- C7: (1) when a retriable failure is retried, the backoff sleep
registered is due after exactly `backoffDuration cfg retries`
(`sleepFor * retries * 2` with the freshly incremented retry counter);
(2) with a positive configured base sleep duration, the backoff
duration strictly increases with the retry counter, so the pause
imposed after a later failure of a task is strictly longer than the
pause after an earlier one. -/
theorem claim_C7_backoff_strictly_increases :
    (∀ (cfg : Config) (now : Nat) (task : Task) (outcome : Outcome) (s : ClientState),
        shouldRetry task outcome = true → task.retries < MAX_RETRIES →
        (handleOutcome cfg now task outcome s).timers
          = s.timers ++ [now + backoffDuration cfg (task.retries + 1)])
    ∧ (∀ (cfg : Config) (r1 r2 : Nat), 0 < cfg.sleepFor → r1 < r2 →
        backoffDuration cfg r1 < backoffDuration cfg r2) := by
  constructor
  · intro cfg now task outcome s h1 h2
    unfold handleOutcome
    rw [if_pos ⟨h1, h2⟩]
    rfl
  · intro cfg r1 r2 hf h12
    unfold backoffDuration
    have : cfg.sleepFor * r1 < cfg.sleepFor * r2 := Nat.mul_lt_mul_of_pos_left h12 hf
    omega

def c7WitTask : Task := mkTask 0 defaultOpts

theorem claim_C7_witness :
    (handleOutcome cfgA 3 c7WitTask (Outcome.response 503) (initState cfgA)).timers
      = (initState cfgA).timers ++ [3 + backoffDuration cfgA (c7WitTask.retries + 1)]
    ∧ backoffDuration cfgA 1 < backoffDuration cfgA 2 :=
  ⟨claim_C7_backoff_strictly_increases.1 cfgA 3 c7WitTask (Outcome.response 503)
      (initState cfgA) (by decide) (by decide),
   claim_C7_backoff_strictly_increases.2 cfgA 1 2 (by decide) (by decide)⟩

def c8Events : List Event :=
  [Event.submit 0 defaultOpts, Event.complete 1 0 (Outcome.response 503),
   Event.timerFired 1001 0]

/-- C8 counterexample: at time 1 the completion of task 0 starts a
cooldown pause (wake-up 1001) and, in the same callback, the retry
path starts a backoff pause (wake-up 2001): two pauses overlap.  The
earlier timer fires at 1001, clears the single `sleeping` flag, and
the retried task is dispatched at 1001 — while the timer of the later pause
(due 2001) is still pending.  A dispatch thus occurs before the later
of the two wake-up times, refuting "the larger blocking constraint
wins" and "an earlier-expiring timer never ends the throttled state
prematurely". -/
theorem claim_C8_counterexample :
    finalLog cfgB c8Events = [LogEntry.dispatch 0 0, LogEntry.dispatch 1001 0]
    ∧ finalTimers cfgB c8Events = [2001]
    ∧ 1001 < 2001 := by
  exact ⟨rfl, rfl, by decide⟩

/-- C8 amended: (1) while any pause is in effect (`sleeping = true`)
the admission routine does nothing, so in particular a rate-window
pause is never entered while a cooldown or backoff pause is already in
effect; (2) the backoff sleep of the retry path, however, registers
its timer unconditionally — even when a pause is already in effect —
leaving the sleeping flag set and two timers pending, and whichever
timer fires first clears the single throttled state, so a dispatch can
occur before the later wake-up time (witnessed concretely by the
counterexample trace). -/
theorem claim_C8_one_throttled_state (cfg : Config) (now : Nat) (s : ClientState)
    (hsl : s.sleeping = true) :
    doNextRequest cfg now s = s
    ∧ (∀ (task : Task) (outcome : Outcome),
        shouldRetry task outcome = true → task.retries < MAX_RETRIES →
        (handleOutcome cfg now task outcome s).sleeping = true
        ∧ (handleOutcome cfg now task outcome s).timers
            = s.timers ++ [now + backoffDuration cfg (task.retries + 1)]) := by
  constructor
  · unfold doNextRequest
    rw [if_pos (Or.inr hsl)]
  · intro task outcome h1 h2
    unfold handleOutcome
    rw [if_pos ⟨h1, h2⟩]
    exact ⟨rfl, rfl⟩

def c8WitState : ClientState := sleep 0 1000 (initState cfgB)

theorem claim_C8_witness :
    doNextRequest cfgB 1 c8WitState = c8WitState
    ∧ ((handleOutcome cfgB 1 (mkTask 0 defaultOpts) (Outcome.response 503) c8WitState).sleeping = true
      ∧ (handleOutcome cfgB 1 (mkTask 0 defaultOpts) (Outcome.response 503) c8WitState).timers
          = c8WitState.timers ++ [1 + backoffDuration cfgB ((mkTask 0 defaultOpts).retries + 1)]) :=
  ⟨(claim_C8_one_throttled_state cfgB 1 c8WitState rfl).1,
   (claim_C8_one_throttled_state cfgB 1 c8WitState rfl).2 (mkTask 0 defaultOpts)
      (Outcome.response 503) (by decide) (by decide)⟩

/-- C9: in every reachable state (1) every submitted task id is owned
exactly once: its copies in the queue and in flight plus its delivered
settlements always total exactly one (so a task is never duplicated and
never silently dropped), and unsubmitted ids appear nowhere; (2) no
task is ever settled twice — at most one resolution-or-rejection event
per task is ever logged; (3) deadlock freedom: whenever tasks are
queued (and the concurrency limit is positive), either a dispatch is in
flight or a timer is pending — some future completion or wake-up event
re-enters admission, so every queued task eventually resolves or
rejects provided dispatched requests complete and timers fire. -/
theorem claim_C9_exactly_once_delivery (cfg : Config) (evts : List Event) (s : ClientState)
    (hr : run cfg evts = some s) :
    (∀ id, occCount id s + settleCount id s.log = if id < s.nextTaskId then 1 else 0)
    ∧ (∀ id, settleCount id s.log ≤ 1)
    ∧ (s.queue ≠ [] → 0 < cfg.maxSockets → s.inFlight ≠ [] ∨ s.timers ≠ []) := by
  have h := run_inv hr
  refine ⟨h.cons, ?_, ?_⟩
  · intro id
    have hc := h.cons id
    by_cases hlt : id < s.nextTaskId
    · rw [if_pos hlt] at hc; omega
    · rw [if_neg hlt] at hc; omega
  · intro hq hmax
    rcases run_dl hr with hd | hd | hd | hd | hd
    · exact absurd hd hq
    · exact Or.inr (h.slt hd)
    · left
      have hs := h.sock
      rw [hd] at hs
      intro hnil
      rw [hnil] at hs
      simp at hs
      omega
    · exact Or.inl hd
    · exact Or.inr hd

theorem claim_C9_witness :
    (∀ id, occCount id ((run cfgA c1Events).getD (initState cfgA))
        + settleCount id ((run cfgA c1Events).getD (initState cfgA)).log
        = if id < ((run cfgA c1Events).getD (initState cfgA)).nextTaskId then 1 else 0)
    ∧ (∀ id, settleCount id ((run cfgA c1Events).getD (initState cfgA)).log ≤ 1)
    ∧ (((run cfgA c1Events).getD (initState cfgA)).queue ≠ [] → 0 < cfgA.maxSockets →
        ((run cfgA c1Events).getD (initState cfgA)).inFlight ≠ []
        ∨ ((run cfgA c1Events).getD (initState cfgA)).timers ≠ []) :=
  claim_C9_exactly_once_delivery cfgA c1Events _ rfl

def c10Events : List Event :=
  [Event.submit 0 noRetryOpts, Event.complete 0 0 (Outcome.transportError true)]

/-- C10 (implicit): a task submitted with `retry: false` starts with
its retry counter already at `MAX_RETRIES`, so the guard
`retries < MAX_RETRIES` fails on every completion — even for a
connection-reset transport error, which is otherwise always
retriable.  Such a task is dispatched once and its promise rejects
immediately with the transport error: in the concrete trace the log is
exactly one dispatch followed by one rejection carrying the
connection-reset error. -/
theorem claim_C10_noretry_connreset_rejects :
    (∀ (id : Nat) (opts : SubmitOptions), opts.retry = false →
        (mkTask id opts).retries = MAX_RETRIES)
    ∧ (∀ (cfg : Config) (now : Nat) (task : Task) (c : Bool) (s : ClientState),
        ¬ task.retries < MAX_RETRIES →
        handleOutcome cfg now task (Outcome.transportError c) s
          = { s with log := s.log ++ [LogEntry.rejected task.id c] })
    ∧ finalLog cfgA c10Events = [LogEntry.dispatch 0 0, LogEntry.rejected 0 true]
    ∧ dispatchCount 0 (finalLog cfgA c10Events) = 1 := by
  refine ⟨?_, ?_, rfl, rfl⟩
  · intro id opts hopts
    unfold mkTask
    simp [hopts]
  · intro cfg now task c s hex
    unfold handleOutcome
    rw [if_neg (fun hc => hex hc.2)]

theorem claim_C10_witness :
    (mkTask 0 noRetryOpts).retries = MAX_RETRIES
    ∧ handleOutcome cfgA 0 (mkTask 0 noRetryOpts) (Outcome.transportError true) (initState cfgA)
        = { initState cfgA with
              log := (initState cfgA).log
                ++ [LogEntry.rejected (mkTask 0 noRetryOpts).id true] } :=
  ⟨claim_C10_noretry_connreset_rejects.1 0 noRetryOpts rfl,
   claim_C10_noretry_connreset_rejects.2.1 cfgA 0 (mkTask 0 noRetryOpts) true
      (initState cfgA) (by decide)⟩

end Sched
